import Mathlib

/-!
Verification of the AgentCli request-orchestration core: a shallow embedding
of the tool-calling loop (`internal/agent/agent_stream.go`), the per-turn
context log (`internal/agent/context.go`), the graph scheduler
(`internal/dag/dag.go`) and the streaming transport's line parser
(`internal/llm/stream.go`), together with theorems settling the spec's
claims about them.
-/

namespace AgentCli

/-- JSON-like values, the shape of data produced by decoding a JSON document
into a dynamically-typed value (Go `interface{}` after `json.Unmarshal`).
Objects are association lists; decoded JSON objects have unique keys. -/
inductive JValue where
  | null : JValue
  | bool (b : Bool) : JValue
  | num (n : Int) : JValue
  | str (s : String) : JValue
  | arr (items : List JValue) : JValue
  | obj (fields : List (String × JValue)) : JValue
  deriving Repr

/-- A decoded JSON argument object (Go `map[string]interface{}`). -/
abbrev Params := List (String × JValue)

/-- Whitespace as recognized by Go's `strings.TrimSpace`/`bytes.TrimSpace`
on the ASCII range (the programs at hand emit only ASCII whitespace). -/
def isSpaceChar (c : Char) : Bool :=
  c = ' ' || c = '\t' || c = '\n' || c = '\r' || c = '\x0b' || c = '\x0c'

/-- Drop leading and trailing whitespace from a character list. -/
def trimChars (l : List Char) : List Char :=
  ((l.dropWhile isSpaceChar).reverse.dropWhile isSpaceChar).reverse

/-- Go `strings.TrimSpace` (model): drop leading and trailing whitespace. -/
def trimStr (s : String) : String :=
  ⟨trimChars s.data⟩

/-- `appendContextEntry` (`internal/agent/context.go`): trim the content,
drop it when empty, otherwise append a `[kind] content` line. -/
def appendContextEntry (entries : List String) (kind content : String) : List String :=
  let content := trimStr content
  if content = "" then entries
  else entries ++ ["[" ++ kind ++ "] " ++ content]

/-- `extractArgs` (`internal/agent/context.go`): coerce the decoded `args`
parameter into a list of argument strings.  `none` models the key being
absent (a nil `interface{}`).  `sprint` stands in for Go's `fmt.Sprint`
rendering of non-string values. -/
def extractArgsJ (sprint : JValue → String) : Option JValue → List String
  | none => []
  | some v =>
    match v with
    | .null => []
    | .arr items =>
      items.foldl (fun acc it =>
        match it with
        | .str s => if s ≠ "" then acc ++ [s] else acc
        | _ => acc ++ [sprint it]) []
    | .str s => if trimStr s = "" then [] else [s]
    | other => [sprint other]

/-- The `command` parameter read as a string; a missing key or a non-string
value gives the zero value `""` (Go `params["command"].(string)` with the
error ignored). -/
def getCommandParam (params : Params) : String :=
  match params.lookup "command" with
  | some (.str s) => s
  | _ => ""

/-- Join strings with single spaces (Go `strings.Join(args, " ")`). -/
def joinSpace : List String → String
  | [] => ""
  | [a] => a
  | a :: rest => a ++ " " ++ joinSpace rest

/-- `formatExecuteCommand` (`internal/agent/context.go`): the command line
recorded for a shell execution — the trimmed `command` parameter, followed
by the extracted `args` when present; empty when the command is empty. -/
def formatExecuteCommand (sprint : JValue → String) (params : Params) : String :=
  let command := trimStr (getCommandParam params)
  if command = "" then ""
  else
    match extractArgsJ sprint (params.lookup "args") with
    | [] => command
    | args => command ++ " " ++ joinSpace args

/-- The entry text built by `recordToolCallContext`
(`internal/agent/context.go`): the command line, extended with the
execution's error text when it failed, or with a success flag / error text
read from a map-shaped result when it succeeded. -/
def contextEntryText (commandLine : String) (outcome : Except String JValue) : String :=
  match outcome with
  | .error e => commandLine ++ " | error=" ++ e
  | .ok result =>
    match result with
    | .obj m =>
      let e1 :=
        match m.lookup "success" with
        | some (.bool b) => commandLine ++ " | success=" ++ (if b then "true" else "false")
        | _ => commandLine
      match m.lookup "error" with
      | some (.str s) => if s ≠ "" then commandLine ++ " | error=" ++ s else e1
      | _ => e1
    | _ => commandLine

/-- `recordToolCallContext` (`internal/agent/context.go`): record a context
entry for a completed tool call.  Only the shell-execution capability with a
nonempty formatted command line produces an entry; the entry carries the
command line plus an error text, a success flag read from a map-shaped
result, or nothing. -/
def recordToolCallContext (sprint : JValue → String) (entries : List String)
    (toolName : String) (params : Params) (outcome : Except String JValue) : List String :=
  if toolName ≠ "execute_command" then entries
  else
    let commandLine := formatExecuteCommand sprint params
    if commandLine = "" then entries
    else appendContextEntry entries "execute_command" (contextEntryText commandLine outcome)

/-! ## Tool-calling loop (`internal/agent/agent_stream.go`, `executeWithDAGStream`) -/

/-- `llm.FunctionCall`: the function-call payload of a requested tool call. -/
structure FunctionCall where
  name : String
  arguments : String
  deriving Repr, DecidableEq

/-- `llm.ToolCall`: one tool call requested by the model. -/
structure ToolCall where
  id : String
  type : String
  function : FunctionCall
  deriving Repr, DecidableEq

/-- `llm.ChatMessage` / `llm.Message`: a conversation message. -/
structure ChatMessage where
  role : String
  content : String
  toolCalls : List ToolCall
  toolCallID : String
  deriving Repr, DecidableEq

/-- One choice of a chat-completion response (`llm.ChatResponse.Choices`
entry); only the message is consumed by the loop. -/
structure Choice where
  message : ChatMessage
  deriving Repr, DecidableEq

/-- `llm.ChatResponse`: the fields of a chat-completion response the loop
reads. -/
structure ChatResponse where
  choices : List Choice
  deriving Repr, DecidableEq

/-- The environment of one turn of the tool-calling loop: the LLM transport
(`llm.Client.Chat`, an oracle returning either a transport error or a
response), the JSON argument parser (`json.Unmarshal` into a map — an
oracle over the raw argument strings), the result serializer
(`json.Marshal`), the `fmt.Sprint` rendering used by the context log, the
capability registry (`tools.ToolRegistry`, a name-to-handler mapping whose
handlers return a result or an error), and the per-chunk output callback's
error behaviour (`onChunk`; its invocations are recorded in the state, and
its return value is only consulted where the code checks it). -/
structure ToolEnv where
  chat : List ChatMessage → Except String ChatResponse
  parseArgs : String → Except String Params
  marshal : JValue → String
  sprint : JValue → String
  registry : List (String × (Params → Except String JValue))
  cbErr : String → Option String

/-- `tools.ToolRegistry.Get`: resolve a capability by name. -/
def lookupTool (registry : List (String × (Params → Except String JValue)))
    (name : String) : Option (Params → Except String JValue) :=
  match registry.find? (fun p => p.1 = name) with
  | some p => some p.2
  | none => none

/-- The mutable state of one turn: the message list, every string handed to
the output callback in order, the context-log entries, and the number of
loop iterations entered so far. -/
structure LoopState where
  messages : List ChatMessage
  chunks : List String
  ctxEntries : List String
  iters : Nat
  deriving Repr, DecidableEq

/-- The error text of `tools.ToolRegistry.Get` for an unknown name. -/
def toolNotFoundErr (name : String) : String :=
  "工具 " ++ name ++ " 不存在"

/-- A tool-role message answering the tool call `id` (Go
`llm.Message{Role:"tool", Content:content, ToolCallID:id}`). -/
def toolRoleMsg (content id : String) : ChatMessage :=
  { role := "tool", content := content, toolCalls := [], toolCallID := id }

/-- The body of the per-tool-call loop in `executeWithDAGStream`: skip
non-function calls; announce the tool; parse the arguments (parse failure
appends a tool-role error message and moves on); resolve the capability
(absence appends a tool-role error message and moves on); execute it,
record the context-log entry, and append either the error text or the
serialized result as a tool-role message. -/
def processToolCall (env : ToolEnv) (st : LoopState) (tc : ToolCall) : LoopState :=
  if tc.type ≠ "function" then st
  else
    let st := { st with chunks := st.chunks ++ ["\n⚙️ 执行工具: " ++ tc.function.name ++ "\n"] }
    match env.parseArgs tc.function.arguments with
    | .error e =>
      let errMsg := "参数解析失败: " ++ e
      { st with
        chunks := st.chunks ++ ["❌ " ++ errMsg ++ "\n"],
        messages := st.messages ++ [toolRoleMsg errMsg tc.id] }
    | .ok params =>
      match lookupTool env.registry tc.function.name with
      | none =>
        let errMsg := "工具不存在: " ++ toolNotFoundErr tc.function.name
        { st with
          chunks := st.chunks ++ ["❌ " ++ errMsg ++ "\n"],
          messages := st.messages ++ [toolRoleMsg errMsg tc.id] }
      | some f =>
        let outcome := f params
        let st := { st with
          ctxEntries := recordToolCallContext env.sprint st.ctxEntries tc.function.name params outcome }
        match outcome with
        | .error e =>
          let errMsg := "执行失败: " ++ e
          { st with
            chunks := st.chunks ++ ["❌ " ++ errMsg ++ "\n"],
            messages := st.messages ++ [toolRoleMsg errMsg tc.id] }
        | .ok v =>
          let resultStr := env.marshal v
          { st with
            chunks := st.chunks ++ ["✅ 执行成功\n"],
            messages := st.messages ++ [toolRoleMsg resultStr tc.id] }

/-- The state after the tool-processing phase of one loop iteration: the
assistant message (content plus requested tool calls) is appended, every
requested tool call is processed in order, and a trailing newline is
emitted. -/
def toolIterationState (env : ToolEnv) (st : LoopState) (choice : Choice) : LoopState :=
  let st := { st with messages := st.messages ++
    [{ role := "assistant", content := choice.message.content,
       toolCalls := choice.message.toolCalls, toolCallID := "" }] }
  let st := choice.message.toolCalls.foldl (processToolCall env) st
  { st with chunks := st.chunks ++ ["\n"] }

/-- The fixed iteration budget of the tool-calling loop. -/
def maxIterations : Nat := 10

/-- The fatal error produced when the iteration budget is exhausted. -/
def budgetExceededErr : String :=
  "达到最大迭代次数 (" ++ toString maxIterations ++ ")，任务未完成"

/-- The iteration structure of `executeWithDAGStream`: with `fuel` loop
iterations remaining, call the LLM; a transport error or an empty choice
list is fatal; a response without tool calls is the final answer (emitted
via the callback when nonempty, the callback's error surfacing as the
turn's error); otherwise append the assistant message, process every
requested tool call in order, emit a newline, and iterate.  Exhausted fuel
is the iteration-budget error. -/
def runToolLoop (env : ToolEnv) (st : LoopState) : Nat → LoopState × Except String String
  | 0 => (st, .error budgetExceededErr)
  | Nat.succ n =>
    let st := { st with iters := st.iters + 1 }
    match env.chat st.messages with
    | .error e => (st, .error ("LLM调用失败: " ++ e))
    | .ok resp =>
      match resp.choices with
      | [] => (st, .error "LLM返回空响应")
      | choice :: _ =>
        if choice.message.toolCalls = [] then
          if choice.message.content = "" then (st, .ok "")
          else
            let st := { st with chunks := st.chunks ++ [choice.message.content] }
            match env.cbErr choice.message.content with
            | some e => (st, .error e)
            | none => (st, .ok choice.message.content)
        else
          runToolLoop env (toolIterationState env st choice) n

/-- One user turn of `executeWithDAGStream` starting from the composed
message list: run the loop with the full iteration budget and a fresh
per-turn state. -/
def executeToolLoop (env : ToolEnv) (messages : List ChatMessage) :
    LoopState × Except String String :=
  runToolLoop env { messages := messages, chunks := [], ctxEntries := [], iters := 0 }
    maxIterations

/-! ## Streaming transport (`internal/llm/stream.go`, `ChatStreamWithTools`) -/

/-- One incremental delta of a streaming response
(`llm.StreamResponse.Choices[i].Delta`). -/
structure StreamDelta where
  role : String
  content : String
  deriving Repr, DecidableEq

/-- One choice of a streaming event (`llm.StreamResponse.Choices` entry). -/
structure StreamChoice where
  delta : StreamDelta
  deriving Repr, DecidableEq

/-- `llm.StreamResponse`: the decoded form of one event-data line. -/
structure StreamResponse where
  choices : List StreamChoice
  deriving Repr, DecidableEq

/-- The line classification of `ChatStreamWithTools`'s read loop: trim the
line, skip it when empty or when it lacks the `data: ` marker, otherwise
yield the event-data payload after the marker (`bytes.HasPrefix` /
`bytes.TrimPrefix` over the characters). -/
def lineData (line : String) : Option String :=
  let l := trimChars line.data
  if l = [] then none
  else if l.take 6 = "data: ".data then some ⟨l.drop 6⟩
  else none

/-- The body of `ChatStreamWithTools`'s read loop over the response's lines:
`decode` stands in for `json.Unmarshal` into a `StreamResponse`.  Lines
without a payload are skipped; the literal `[DONE]` payload ends the read
(success); an undecodable payload is skipped; a decoded event contributes
its first choice's nonempty delta content to the accumulator and to the
callback (`cb` gives the callback's error behaviour; a callback error stops
the read and is surfaced); end of input also ends the read (success).  The
result carries the accumulated content and the callback invocations in
order. -/
def processStream (decode : String → Option StreamResponse) (cb : String → Option String) :
    List String → String → List String → Except String (String × List String)
  | [], acc, calls => .ok (acc, calls)
  | line :: rest, acc, calls =>
    match lineData line with
    | none => processStream decode cb rest acc calls
    | some data =>
      if data = "[DONE]" then .ok (acc, calls)
      else
        match decode data with
        | none => processStream decode cb rest acc calls
        | some resp =>
          match resp.choices with
          | [] => processStream decode cb rest acc calls
          | c :: _ =>
            if c.delta.content = "" then processStream decode cb rest acc calls
            else
              match cb c.delta.content with
              | some e => .error e
              | none => processStream decode cb rest (acc ++ c.delta.content)
                  (calls ++ [c.delta.content])

/-- The streaming read of `ChatStreamWithTools` from the first line, with an
empty accumulator and no callback invocations yet. -/
def chatStreamLines (decode : String → Option StreamResponse) (cb : String → Option String)
    (lines : List String) : Except String (String × List String) :=
  processStream decode cb lines "" []

/-! ## Graph scheduler (`internal/dag/dag.go`) -/

/-- `dag.NodeStatus`. -/
inductive NodeStatus where
  | pending | running | completed | failed | skipped
  deriving Repr, DecidableEq

/-- `dag.Node`: a task node of the graph.  The handler is the bound
`dag.NodeHandler` (`Execute(ctx, input) -> (output, error)`). -/
structure DagNode where
  id : String
  name : String
  deps : List String
  status : NodeStatus
  input : List (String × JValue)
  output : List (String × JValue)
  handler : Option (List (String × JValue) → Except String (List (String × JValue)))

/-- `dag.DAG`: the graph's node mapping (entries of the Go
`map[string]*Node`, unique ids) plus its configuration. -/
structure Graph where
  nodes : List DagNode
  maxDepth : Nat
  parallelNum : Nat
  verbose : Bool

/-- Lookup in the graph's node mapping. -/
def findNode (nodes : List DagNode) (id : String) : Option DagNode :=
  nodes.find? (fun n => n.id = id)

/-- Whether an id is present in the graph's node mapping. -/
def containsNode (nodes : List DagNode) (id : String) : Bool :=
  nodes.any (fun n => n.id = id)

/-- `dag.DAG.AddNode`: fail (graph unchanged) when the id already exists,
otherwise insert the node. -/
def addNode (g : Graph) (n : DagNode) : Graph × Option String :=
  if containsNode g.nodes n.id then (g, some ("节点 " ++ n.id ++ " 已存在"))
  else ({ g with nodes := g.nodes ++ [n] }, none)

/-- Go map assignment `m[k] = v` on an association-list model: overwrite the
key when present, append it otherwise. -/
def mapSet (m : List (String × JValue)) (k : String) (v : JValue) :
    List (String × JValue) :=
  if m.any (fun p => p.1 = k) then m.map (fun p => if p.1 = k then (k, v) else p)
  else m ++ [(k, v)]

/-- `dag.Node.SetInput`. -/
def setInput (n : DagNode) (k : String) (v : JValue) : DagNode :=
  { n with input := mapSet n.input k v }

/-- `dag.DAG.prepareDependencyOutputs`: for each dependency id in order,
when the dependency exists in the graph, merge every key of its output map
into the node's input map. -/
def prepareDependencyOutputs (nodes : List DagNode) (n : DagNode) : DagNode :=
  n.deps.foldl (fun cur depID =>
    match findNode nodes depID with
    | some dep => dep.output.foldl (fun c kv => setInput c kv.1 kv.2) cur
    | none => cur) n

/-- `dag.Node.Execute`: refuse a node that is not pending; otherwise invoke
the bound handler on (a copy of) the input map, recording failure or the
produced output map and completion; a node without a handler completes with
its output unchanged. -/
def nodeExecute (n : DagNode) : DagNode × Option String :=
  if n.status ≠ .pending then
    (n, some ("节点 " ++ n.id ++ " 状态不是待处理状态"))
  else
    match n.handler with
    | some h =>
      match h n.input with
      | .error e => ({ n with status := .failed }, some ("节点 " ++ n.id ++ " 执行失败: " ++ e))
      | .ok out => ({ n with status := .completed, output := out }, none)
    | none => ({ n with status := .completed }, none)

/-- The per-node work of `dag.DAG.executeNodes`'s launched task: merge the
dependency outputs into the node's input, then execute the node. -/
def executeNodeWithDeps (nodes : List DagNode) (n : DagNode) : DagNode × Option String :=
  nodeExecute (prepareDependencyOutputs nodes n)

/-! ## Concrete instances used to exercise the definitions -/

/-- A fresh per-turn loop state. -/
def stEmpty : LoopState :=
  { messages := [], chunks := [], ctxEntries := [], iters := 0 }

/-- The raw argument payload `{}`. -/
def payloadEmptyObj : String := "\x7b\x7d"

/-- The raw argument payload `{"command":"ls"}`. -/
def payloadLs : String := "\x7b\"command\":\"ls\"\x7d"

/-- A concrete JSON-argument parse oracle: the two payloads above decode to
their object forms, anything else fails to parse. -/
def parse0 : String → Except String Params := fun s =>
  if s = payloadEmptyObj then .ok []
  else if s = payloadLs then .ok [("command", .str "ls")]
  else .error "invalid character"

/-- A capability that succeeds with a map-shaped result. -/
def execOk : Params → Except String JValue := fun _ => .ok (.obj [("success", .bool true)])

/-- A capability that fails. -/
def execFail : Params → Except String JValue := fun _ => .error "exit status 1"

/-- A shell-execution call with an empty argument object. -/
def tcExecEmpty : ToolCall :=
  { id := "call-1", type := "function", function := { name := "execute_command", arguments := payloadEmptyObj } }

/-- A shell-execution call carrying `{"command":"ls"}`. -/
def tcExecLs : ToolCall :=
  { id := "call-2", type := "function", function := { name := "execute_command", arguments := payloadLs } }

/-- A call to an unregistered capability with unparsable arguments. -/
def tcGhostBadArgs : ToolCall :=
  { id := "call-3", type := "function", function := { name := "ghost", arguments := "not-json" } }

/-- A call to an unregistered capability with parsable arguments. -/
def tcGhostOk : ToolCall :=
  { id := "call-4", type := "function", function := { name := "ghost", arguments := payloadEmptyObj } }

/-- A requested call whose type is not `function`. -/
def tcOther : ToolCall :=
  { id := "call-5", type := "custom", function := { name := "execute_command", arguments := payloadEmptyObj } }

/-- Build a concrete environment around a chat oracle and a registry. -/
def mkEnv (chat : List ChatMessage → Except String ChatResponse)
    (registry : List (String × (Params → Except String JValue))) : ToolEnv :=
  { chat := chat, parseArgs := parse0, marshal := fun _ => "null",
    sprint := fun _ => "", registry := registry, cbErr := fun _ => none }

/-- A chat oracle that always requests the shell-execution tool. -/
def chatToolLoop : List ChatMessage → Except String ChatResponse := fun _ =>
  .ok { choices := [{ message :=
    { role := "assistant", content := "", toolCalls := [tcExecEmpty], toolCallID := "" } }] }

/-- A chat oracle that immediately answers with nonempty content. -/
def chatFinalHello : List ChatMessage → Except String ChatResponse := fun _ =>
  .ok { choices := [{ message :=
    { role := "assistant", content := "你好", toolCalls := [], toolCallID := "" } }] }

/-- A chat oracle that immediately answers with empty content. -/
def chatFinalEmpty : List ChatMessage → Except String ChatResponse := fun _ =>
  .ok { choices := [{ message :=
    { role := "assistant", content := "", toolCalls := [], toolCallID := "" } }] }

/-- A chat oracle for scenarios that never reach the model. -/
def chatNever : List ChatMessage → Except String ChatResponse := fun _ =>
  .error "unreachable"

/-- Environment whose model always requests tools. -/
def envLoop : ToolEnv := mkEnv chatToolLoop [("execute_command", execOk)]

/-- Environment whose model immediately answers `你好`. -/
def envHello : ToolEnv := mkEnv chatFinalHello []

/-- Environment whose model immediately answers with empty content. -/
def envEmptyAns : ToolEnv := mkEnv chatFinalEmpty []

/-- Environment with a failing shell-execution capability. -/
def envExecFail : ToolEnv := mkEnv chatNever [("execute_command", execFail)]

/-- Environment with an empty capability registry. -/
def envNoTools : ToolEnv := mkEnv chatNever []

/-- A chat oracle that requests the unregistered `ghost` capability. -/
def chatGhost : List ChatMessage → Except String ChatResponse := fun _ =>
  .ok { choices := [{ message :=
    { role := "assistant", content := "", toolCalls := [tcGhostOk], toolCallID := "" } }] }

/-- Environment whose model requests an unregistered capability. -/
def envGhost : ToolEnv := mkEnv chatGhost []

/-- A completed producer node with output `x ↦ 5`. -/
def nodeP : DagNode :=
  { id := "p", name := "producer", deps := [], status := .completed,
    input := [], output := [("x", JValue.num 5)], handler := none }

/-- A handler returning its input unchanged as output. -/
def handlerId : List (String × JValue) → Except String (List (String × JValue)) :=
  fun i => .ok i

/-- A pending consumer node depending on the producer. -/
def nodeC : DagNode :=
  { id := "c", name := "consumer", deps := ["p"], status := .pending,
    input := [], output := [], handler := some handlerId }

/-- A graph already holding the producer node. -/
def graph0 : Graph := { nodes := [nodeP], maxDepth := 3, parallelNum := 2, verbose := false }

/-- The event payload `{"choices":[{"delta":{"content":"ab"}}]}`. -/
def jsonAb : String := "\x7b\"choices\":[\x7b\"delta\":\x7b\"content\":\"ab\"\x7d\x7d]\x7d"

/-- The event payload `{"choices":[{"delta":{"content":"cd"}}]}`. -/
def jsonCd : String := "\x7b\"choices\":[\x7b\"delta\":\x7b\"content\":\"cd\"\x7d\x7d]\x7d"

/-- A concrete delta decode oracle for the two payloads above. -/
def decode0 : String → Option StreamResponse := fun s =>
  if s = jsonAb then some { choices := [{ delta := { role := "", content := "ab" } }] }
  else if s = jsonCd then some { choices := [{ delta := { role := "", content := "cd" } }] }
  else none

/-- A per-chunk callback that never fails. -/
def cbOk : String → Option String := fun _ => none

/-! ## Helper lemmas -/

theorem dropWhile_exists_not (p : Char → Bool) :
    ∀ l : List Char, l.dropWhile p ≠ [] → ∃ c ∈ l.dropWhile p, p c = false := by
  intro l
  induction l with
  | nil => intro h; simp [List.dropWhile] at h
  | cons a t ih =>
    intro h
    by_cases hp : p a
    · rw [List.dropWhile_cons_of_pos hp] at h ⊢
      exact ih h
    · rw [List.dropWhile_cons_of_neg hp]
      exact ⟨a, List.mem_cons_self a t, Bool.of_not_eq_true hp⟩

theorem trimChars_exists_not (l : List Char) (h : trimChars l ≠ []) :
    ∃ c ∈ trimChars l, isSpaceChar c = false := by
  unfold trimChars at h ⊢
  have h1 : (l.dropWhile isSpaceChar).reverse.dropWhile isSpaceChar ≠ [] := by
    intro he
    rw [he] at h
    simp at h
  obtain ⟨c, hc, hcp⟩ := dropWhile_exists_not _ _ h1
  exact ⟨c, List.mem_reverse.mpr hc, hcp⟩

theorem all_space_of_trimChars_eq_nil (l : List Char) (h : trimChars l = []) :
    ∀ c ∈ l, isSpaceChar c = true := by
  unfold trimChars at h
  have h2 : (l.dropWhile isSpaceChar).reverse.dropWhile isSpaceChar = [] := by
    simpa using h
  have h4 : ∀ c ∈ l.dropWhile isSpaceChar, isSpaceChar c = true := by
    intro c hc
    exact List.dropWhile_eq_nil_iff.mp h2 c (List.mem_reverse.mpr hc)
  intro c hc
  rw [← List.takeWhile_append_dropWhile (p := isSpaceChar) (l := l)] at hc
  rcases List.mem_append.mp hc with h5 | h5
  · exact List.mem_takeWhile_imp h5
  · exact h4 c h5

theorem trimChars_ne_nil_of_mem (l : List Char) (c : Char) (hc : isSpaceChar c = false)
    (hm : c ∈ l) : trimChars l ≠ [] := by
  intro h
  have := all_space_of_trimChars_eq_nil l h c hm
  rw [hc] at this
  exact Bool.false_ne_true this

theorem trimStr_eq_empty_iff (s : String) : trimStr s = "" ↔ trimChars s.data = [] := by
  constructor
  · intro h
    have := congrArg String.data h
    simpa [trimStr] using this
  · intro h
    unfold trimStr
    rw [h]

theorem formatExecuteCommand_shape (sprint : JValue → String) (params : Params)
    (h : formatExecuteCommand sprint params ≠ "") :
    ∃ t, formatExecuteCommand sprint params = trimStr (getCommandParam params) ++ t
      ∧ trimStr (getCommandParam params) ≠ "" := by
  by_cases hc : trimStr (getCommandParam params) = ""
  · exact absurd (by simp [formatExecuteCommand, hc]) h
  · unfold formatExecuteCommand
    cases hm : extractArgsJ sprint (params.lookup "args") with
    | nil => exact ⟨"", by simp [hc, hm], hc⟩
    | cons a as =>
      exact ⟨" " ++ joinSpace (a :: as), by simp [hc, hm, String.append_assoc], hc⟩

theorem trimStr_format_append_ne (sprint : JValue → String) (params : Params) (t : String)
    (h : formatExecuteCommand sprint params ≠ "") :
    trimStr (formatExecuteCommand sprint params ++ t) ≠ "" := by
  obtain ⟨u, hu, hcmd⟩ := formatExecuteCommand_shape sprint params h
  have hne : trimChars (getCommandParam params).data ≠ [] := by
    intro hx
    exact hcmd ((trimStr_eq_empty_iff _).mpr hx)
  obtain ⟨c, hcmem, hcws⟩ := trimChars_exists_not _ hne
  intro hcontra
  have hall := all_space_of_trimChars_eq_nil _ ((trimStr_eq_empty_iff _).mp hcontra)
  have hcm : c ∈ (formatExecuteCommand sprint params ++ t).data := by
    rw [hu]
    simp only [String.data_append]
    exact List.mem_append.mpr (Or.inl (List.mem_append.mpr (Or.inl hcmem)))
  have := hall c hcm
  rw [hcws] at this
  exact Bool.false_ne_true this

theorem append_singleton_ne_self {α : Type} (l : List α) (a : α) : l ++ [a] ≠ l := by
  intro h
  have := congrArg List.length h
  simp at this

/-! ## C10: non-function tool calls are skipped entirely -/

/-- C10: in the tool-calling loop, a requested tool call whose `type` field
is not `"function"` is skipped entirely: the loop state — message list,
emitted output, context log, iteration count — is returned unchanged, so no
argument parsing, capability resolution, execution, tool-role message or
output emission happens for it. -/
theorem nonFunction_toolCall_skipped (env : ToolEnv) (st : LoopState) (tc : ToolCall)
    (h : tc.type ≠ "function") : processToolCall env st tc = st := by
  simp [processToolCall, h]

/-- Witness for C10 at a concrete non-function tool call. -/
theorem nonFunction_toolCall_skipped_witness :
    processToolCall envNoTools stEmpty tcOther = stEmpty :=
  nonFunction_toolCall_skipped envNoTools stEmpty tcOther (by decide)

/-! ## C8: AddNode rejects duplicates and inserts fresh ids -/

/-- C8: `AddNode` with an id already present returns the DuplicateNode
error and leaves the graph unchanged; with a fresh id it inserts the node
(which is then found under its id). -/
theorem addNode_duplicate_and_fresh (g : Graph) (n : DagNode) :
    (containsNode g.nodes n.id = true →
      addNode g n = (g, some ("节点 " ++ n.id ++ " 已存在")))
    ∧ (containsNode g.nodes n.id = false →
      addNode g n = ({ g with nodes := g.nodes ++ [n] }, none)
      ∧ findNode (addNode g n).1.nodes n.id = some n) := by
  constructor
  · intro h
    simp [addNode, h]
  · intro h
    refine ⟨by simp [addNode, h], ?_⟩
    simp only [addNode, h, Bool.false_eq_true, if_false]
    unfold findNode
    rw [List.find?_append]
    have h1 : g.nodes.find? (fun m => m.id = n.id) = none := by
      rw [List.find?_eq_none]
      intro x hx
      simp only [containsNode, List.any_eq_false, decide_eq_true_eq] at h
      simpa using h x hx
    rw [h1]
    simp

/-- Witness for C8: the duplicate producer id is rejected with the graph
unchanged, and a fresh consumer id is inserted. -/
theorem addNode_duplicate_and_fresh_witness :
    (addNode graph0 nodeP = (graph0, some ("节点 " ++ nodeP.id ++ " 已存在")))
    ∧ (addNode graph0 nodeC = ({ graph0 with nodes := graph0.nodes ++ [nodeC] }, none)
      ∧ findNode (addNode graph0 nodeC).1.nodes nodeC.id = some nodeC) :=
  ⟨(addNode_duplicate_and_fresh graph0 nodeP).1 rfl,
   (addNode_duplicate_and_fresh graph0 nodeC).2 rfl⟩

/-! ## C7: dependency outputs are merged into the input before the handler runs -/

theorem lookup_map_overwrite (k : String) (v : JValue) :
    ∀ m : Params, (m.map (fun p => if p.1 = k then (k, v) else p)).lookup k
      = if m.any (fun p => p.1 = k) then some v else none := by
  intro m
  induction m with
  | nil => simp
  | cons a t ih =>
    obtain ⟨a1, a2⟩ := a
    by_cases ha : a1 = k
    · simp [ha]
    · have hb : (k == a1) = false := beq_eq_false_iff_ne.mpr (fun hk => ha hk.symm)
      simp [List.lookup_cons, ha, hb, ih]
      rw [decide_eq_false ha, Bool.false_or]

theorem lookup_append_self (k : String) (v : JValue) :
    ∀ m : Params, m.any (fun p => p.1 = k) = false → (m ++ [(k, v)]).lookup k = some v := by
  intro m
  induction m with
  | nil => intro _; simp
  | cons a t ih =>
    intro h
    obtain ⟨a1, a2⟩ := a
    simp only [List.any_cons, Bool.or_eq_false_iff, decide_eq_false_iff_not] at h
    have hb : (k == a1) = false := beq_eq_false_iff_ne.mpr (fun hk => h.1 hk.symm)
    rw [List.cons_append, List.lookup_cons, hb]
    exact ih h.2

theorem lookup_mapSet (m : Params) (k : String) (v : JValue) :
    (mapSet m k v).lookup k = some v := by
  unfold mapSet
  by_cases h : m.any (fun p => p.1 = k)
  · rw [if_pos h, lookup_map_overwrite, if_pos h]
  · rw [if_neg h]
    exact lookup_append_self k v m (Bool.eq_false_iff.mpr h)

/-- C7: in the scheduler, the dependency outputs are merged into the node's
input map — in the iteration order of the dependency-id list, later keys
overwriting earlier ones on conflict — before the handler is invoked on
that input.  First conjunct: with two dependencies both producing key `k`,
the merged input holds the second dependency's value.  Second conjunct: a
node depending on a producer with output `x ↦ 5` observes `5` under `x` in
the input, and its execution invokes the handler on exactly that merged
input (a success recording the handler's output and completion). -/
theorem dependencyOutputs_merged_before_handler (nodes : List DagNode) (n : DagNode) :
    (∀ d1 d2 k v1 v2,
      n.deps = [d1.id, d2.id] →
      findNode nodes d1.id = some d1 → findNode nodes d2.id = some d2 →
      d1.output = [(k, v1)] → d2.output = [(k, v2)] →
      ((prepareDependencyOutputs nodes n).input).lookup k = some v2)
    ∧ (∀ d h out,
      n.deps = [d.id] → findNode nodes d.id = some d →
      d.output = [("x", JValue.num 5)] →
      ((prepareDependencyOutputs nodes n).input).lookup "x" = some (JValue.num 5)
      ∧ (n.status = .pending → n.handler = some h →
        h (prepareDependencyOutputs nodes n).input = .ok out →
        executeNodeWithDeps nodes n =
          ({ (prepareDependencyOutputs nodes n) with status := .completed, output := out }, none))) := by
  constructor
  · intro d1 d2 k v1 v2 hdeps hf1 hf2 ho1 ho2
    simp only [prepareDependencyOutputs, hdeps, List.foldl_cons, List.foldl_nil, hf1, hf2,
      ho1, ho2, setInput]
    exact lookup_mapSet _ k v2
  · intro d h out hdeps hf ho
    have hprep : prepareDependencyOutputs nodes n = { n with input := mapSet n.input "x" (JValue.num 5) } := by
      simp [prepareDependencyOutputs, hdeps, hf, ho, setInput]
    constructor
    · rw [hprep]
      exact lookup_mapSet _ _ _
    · intro hst hh hrun
      unfold executeNodeWithDeps nodeExecute
      rw [hprep] at hrun ⊢
      simp [hst, hh, hrun]

/-- Witness for C7: the consumer node merged with the producer's output
observes `x ↦ 5` and completes with the identity handler's output. -/
theorem dependencyOutputs_merged_before_handler_witness :
    ((prepareDependencyOutputs [nodeP] nodeC).input).lookup "x" = some (JValue.num 5)
    ∧ executeNodeWithDeps [nodeP] nodeC =
      ({ (prepareDependencyOutputs [nodeP] nodeC) with
          status := .completed, output := [("x", JValue.num 5)] }, none) := by
  have t := (dependencyOutputs_merged_before_handler [nodeP] nodeC).2 nodeP handlerId
    [("x", JValue.num 5)] rfl rfl rfl
  exact ⟨t.1, t.2 rfl rfl rfl⟩

/-! ## C1: exhausting the iteration budget -/

theorem processToolCall_messages_shape (env : ToolEnv) (st : LoopState) (tc : ToolCall) :
    ∃ ms, (processToolCall env st tc).messages = st.messages ++ ms := by
  unfold processToolCall
  split
  · exact ⟨[], (List.append_nil _).symm⟩
  · split
    · exact ⟨_, rfl⟩
    · split
      · exact ⟨_, rfl⟩
      · dsimp only
        split
        · exact ⟨_, rfl⟩
        · exact ⟨_, rfl⟩

theorem processToolCall_iters (env : ToolEnv) (st : LoopState) (tc : ToolCall) :
    (processToolCall env st tc).iters = st.iters := by
  unfold processToolCall
  split
  · rfl
  · split
    · rfl
    · split
      · rfl
      · dsimp only
        split
        · rfl
        · rfl

theorem foldl_processToolCall_iters (env : ToolEnv) :
    ∀ (l : List ToolCall) (st : LoopState), (l.foldl (processToolCall env) st).iters = st.iters := by
  intro l
  induction l with
  | nil => intro st; rfl
  | cons tc t ih => intro st; rw [List.foldl_cons, ih, processToolCall_iters]

theorem runToolLoop_budget (env : ToolEnv)
    (hchat : ∀ msgs, ∃ c cs, env.chat msgs = .ok { choices := c :: cs }
      ∧ c.message.toolCalls ≠ []) :
    ∀ (fuel : Nat) (st : LoopState),
      (runToolLoop env st fuel).2 = .error budgetExceededErr
      ∧ (runToolLoop env st fuel).1.iters = st.iters + fuel := by
  intro fuel
  induction fuel with
  | zero => intro st; exact ⟨rfl, rfl⟩
  | succ n ih =>
    intro st
    obtain ⟨c, cs, hc, htc⟩ := hchat st.messages
    simp only [runToolLoop, hc]
    rw [if_neg htc]
    refine ⟨(ih _).1, ?_⟩
    rw [(ih _).2]
    simp only [toolIterationState, foldl_processToolCall_iters]
    omega

/-- C1: when every model response of the turn carries at least one
tool-call request, the loop performs exactly 10 (`maxIterations`)
iterations and the turn ends with the fatal iteration-budget-exceeded
error — no final answer is returned. -/
theorem iteration_budget_exhausted (env : ToolEnv) (messages : List ChatMessage)
    (hchat : ∀ msgs, ∃ c cs, env.chat msgs = .ok { choices := c :: cs }
      ∧ c.message.toolCalls ≠ []) :
    (executeToolLoop env messages).2 = .error budgetExceededErr
    ∧ (executeToolLoop env messages).1.iters = maxIterations := by
  have h := runToolLoop_budget env hchat maxIterations
    { messages := messages, chunks := [], ctxEntries := [], iters := 0 }
  exact ⟨h.1, by simpa using h.2⟩

/-- Witness for C1: a model that always requests the shell-execution tool
exhausts the budget after exactly 10 iterations. -/
theorem iteration_budget_exhausted_witness :
    (executeToolLoop envLoop []).2 = .error budgetExceededErr
    ∧ (executeToolLoop envLoop []).1.iters = maxIterations :=
  iteration_budget_exhausted envLoop [] (fun _ => ⟨_, [], rfl, by decide⟩)

/-! ## C2: a response without tool calls is the final answer -/

/-- Counterexample to C2 as stated: with a first model response carrying no
tool calls and empty content, the turn does terminate with that content as
the final answer, but the output callback is never invoked — the content is
not emitted exactly once. -/
theorem final_answer_empty_content_not_emitted :
    (executeToolLoop envEmptyAns []).2 = .ok ""
    ∧ (executeToolLoop envEmptyAns []).1.chunks = [] :=
  ⟨rfl, rfl⟩

/-- C2 (amended): in any iteration whose model response carries no
tool-call requests, the loop terminates the turn returning the response's
content as the final answer, emits the content via the output callback
exactly once when it is nonempty — and not at all when it is empty —
appends nothing to the message list, and consumes exactly this one
iteration. -/
theorem final_answer_terminates_turn (env : ToolEnv) (st : LoopState) (n : Nat)
    (resp : ChatResponse) (c : Choice) (cs : List Choice)
    (hc : env.chat st.messages = .ok resp) (hch : resp.choices = c :: cs)
    (htc : c.message.toolCalls = [])
    (hcb : env.cbErr c.message.content = none) :
    (runToolLoop env st (n + 1)).2 = .ok c.message.content
    ∧ (runToolLoop env st (n + 1)).1.chunks
      = st.chunks ++ (if c.message.content = "" then [] else [c.message.content])
    ∧ (runToolLoop env st (n + 1)).1.messages = st.messages
    ∧ (runToolLoop env st (n + 1)).1.iters = st.iters + 1 := by
  simp only [runToolLoop, hc, hch, htc]
  by_cases hcc : c.message.content = ""
  · simp [hcc]
  · simp [hcc, hcb]

/-- Witness for C2 (amended): a model that immediately answers `你好`
terminates the turn on iteration 1 with the content emitted once. -/
theorem final_answer_terminates_turn_witness :
    (runToolLoop envHello stEmpty (9 + 1)).2 = .ok "你好"
    ∧ (runToolLoop envHello stEmpty (9 + 1)).1.chunks = ["你好"]
    ∧ (runToolLoop envHello stEmpty (9 + 1)).1.messages = []
    ∧ (runToolLoop envHello stEmpty (9 + 1)).1.iters = 1 := by
  have t := final_answer_terminates_turn envHello stEmpty 9
    { choices := [{ message :=
        { role := "assistant", content := "你好", toolCalls := [], toolCallID := "" } }] }
    { message := { role := "assistant", content := "你好", toolCalls := [], toolCallID := "" } }
    [] rfl rfl rfl rfl
  refine ⟨t.1, ?_, t.2.2.1, t.2.2.2⟩
  rw [t.2.1]
  rfl

/-! ## C3: context-log entries for executed tool calls -/

theorem contextEntryText_shape (cmd : String) (outcome : Except String JValue) :
    ∃ t, contextEntryText cmd outcome = cmd ++ t := by
  rcases outcome with e | r
  · exact ⟨" | error=" ++ e, by simp only [contextEntryText]; rw [String.append_assoc]⟩
  · cases r
    case obj m =>
      simp only [contextEntryText]
      have he1 : ∃ t,
          (match m.lookup "success" with
           | some (JValue.bool b) => cmd ++ " | success=" ++ (if b then "true" else "false")
           | _ => cmd) = cmd ++ t := by
        cases hs : m.lookup "success" with
        | none => exact ⟨"", (String.append_empty _).symm⟩
        | some v =>
          cases v <;> dsimp only
          case bool b =>
            exact ⟨" | success=" ++ (if b then "true" else "false"), by rw [String.append_assoc]⟩
          all_goals exact ⟨"", (String.append_empty _).symm⟩
      cases he : m.lookup "error" with
      | none =>
        dsimp only
        exact he1
      | some v =>
        cases v <;> dsimp only
        case str s =>
          by_cases hse : s = ""
          · rw [if_neg (not_not_intro hse)]
            exact he1
          · rw [if_pos hse]
            exact ⟨" | error=" ++ s, by rw [String.append_assoc]⟩
        all_goals exact he1
    all_goals exact ⟨"", by simp [contextEntryText]⟩

theorem recordToolCallContext_other (sprint : JValue → String) (entries : List String)
    (params : Params) (outcome : Except String JValue) (name : String)
    (h : name ≠ "execute_command") :
    recordToolCallContext sprint entries name params outcome = entries := by
  simp [recordToolCallContext, h]

theorem recordToolCallContext_emptyCmd (sprint : JValue → String) (entries : List String)
    (params : Params) (outcome : Except String JValue)
    (h : formatExecuteCommand sprint params = "") :
    recordToolCallContext sprint entries "execute_command" params outcome = entries := by
  simp [recordToolCallContext, h]

theorem recordToolCallContext_appends (sprint : JValue → String) (entries : List String)
    (params : Params) (outcome : Except String JValue)
    (h : formatExecuteCommand sprint params ≠ "") :
    recordToolCallContext sprint entries "execute_command" params outcome
      = entries ++ ["[execute_command] "
          ++ trimStr (contextEntryText (formatExecuteCommand sprint params) outcome)] := by
  unfold recordToolCallContext
  rw [if_neg (by simp)]
  dsimp only
  rw [if_neg h]
  obtain ⟨t, ht⟩ := contextEntryText_shape (formatExecuteCommand sprint params) outcome
  unfold appendContextEntry
  rw [ht, if_neg (trimStr_format_append_ne sprint params t h)]
  rfl

theorem processToolCall_ctxEntries (env : ToolEnv) (st : LoopState) (tc : ToolCall)
    (params : Params) (f : Params → Except String JValue)
    (hty : tc.type = "function")
    (hp : env.parseArgs tc.function.arguments = .ok params)
    (hf : lookupTool env.registry tc.function.name = some f) :
    (processToolCall env st tc).ctxEntries
      = recordToolCallContext env.sprint st.ctxEntries tc.function.name params (f params) := by
  unfold processToolCall
  rw [if_neg (by simp [hty])]
  dsimp only
  rw [hp]
  dsimp only
  rw [hf]
  dsimp only
  cases ho : f params <;> dsimp only

/-- C3 (amended): for every executed tool call (type `function`, parsable
arguments, resolvable capability), whether the execution succeeds or fails
the loop hands the outcome to the context recorder, and an entry is
recorded if and only if the capability is the shell-execution capability
and the parameters yield a nonempty command line; the recorded entry is the
trimmed command line plus outcome text, which for a failed execution is the
command line followed by the error text. -/
theorem executeCommand_context_logging (env : ToolEnv) (st : LoopState) (tc : ToolCall)
    (params : Params) (f : Params → Except String JValue)
    (hty : tc.type = "function")
    (hp : env.parseArgs tc.function.arguments = .ok params)
    (hf : lookupTool env.registry tc.function.name = some f) :
    (processToolCall env st tc).ctxEntries
      = recordToolCallContext env.sprint st.ctxEntries tc.function.name params (f params)
    ∧ ((processToolCall env st tc).ctxEntries ≠ st.ctxEntries
      ↔ tc.function.name = "execute_command" ∧ formatExecuteCommand env.sprint params ≠ "")
    ∧ (∀ e, tc.function.name = "execute_command" → f params = .error e →
        formatExecuteCommand env.sprint params ≠ "" →
        (processToolCall env st tc).ctxEntries = st.ctxEntries ++
          ["[execute_command] "
            ++ trimStr (formatExecuteCommand env.sprint params ++ " | error=" ++ e)]) := by
  have h1 := processToolCall_ctxEntries env st tc params f hty hp hf
  refine ⟨h1, ?_, ?_⟩
  · rw [h1]
    by_cases hec : tc.function.name = "execute_command"
    · rw [hec]
      by_cases hcmd : formatExecuteCommand env.sprint params = ""
      · rw [recordToolCallContext_emptyCmd env.sprint st.ctxEntries params (f params) hcmd]
        simp [hcmd]
      · rw [recordToolCallContext_appends env.sprint st.ctxEntries params (f params) hcmd]
        constructor
        · intro _
          exact ⟨rfl, hcmd⟩
        · intro _
          exact append_singleton_ne_self st.ctxEntries _
    · rw [recordToolCallContext_other env.sprint st.ctxEntries params (f params) _ hec]
      simp [hec]
  · intro e hec he hcmd
    rw [h1, hec, he]
    rw [recordToolCallContext_appends env.sprint st.ctxEntries params (.error e) hcmd]
    rfl

/-- Counterexample to C3 as stated: a shell-execution call whose parameters
lack a command string is resolved and executed (it fails, and its tool-role
error message is appended), yet no context-log entry is recorded. -/
theorem executeCommand_no_entry_without_command :
    (∃ f, lookupTool envExecFail.registry "execute_command" = some f)
    ∧ (processToolCall envExecFail stEmpty tcExecEmpty).messages
      = [toolRoleMsg ("执行失败: " ++ "exit status 1") "call-1"]
    ∧ (processToolCall envExecFail stEmpty tcExecEmpty).ctxEntries = [] :=
  ⟨⟨execFail, rfl⟩, rfl, rfl⟩

/-- Witness for C3 (amended) at a failing `ls` invocation. -/
theorem executeCommand_context_logging_witness :
    (processToolCall envExecFail stEmpty tcExecLs).ctxEntries
      = recordToolCallContext envExecFail.sprint stEmpty.ctxEntries "execute_command"
          [("command", JValue.str "ls")] (execFail [("command", JValue.str "ls")])
    ∧ ((processToolCall envExecFail stEmpty tcExecLs).ctxEntries ≠ stEmpty.ctxEntries
      ↔ ("execute_command" : String) = "execute_command"
        ∧ formatExecuteCommand envExecFail.sprint [("command", JValue.str "ls")] ≠ "")
    ∧ (processToolCall envExecFail stEmpty tcExecLs).ctxEntries = stEmpty.ctxEntries ++
        ["[execute_command] " ++ trimStr (formatExecuteCommand envExecFail.sprint
          [("command", JValue.str "ls")] ++ " | error=" ++ "exit status 1")] := by
  have t := executeCommand_context_logging envExecFail stEmpty tcExecLs
    [("command", JValue.str "ls")] execFail rfl rfl rfl
  exact ⟨t.1, t.2.1, t.2.2 "exit status 1" rfl rfl (by decide)⟩

/-! ## C4: tool calls naming absent capabilities -/

theorem processToolCall_messages_mono (env : ToolEnv) (st : LoopState) (tc : ToolCall)
    (m : ChatMessage) (h : m ∈ st.messages) : m ∈ (processToolCall env st tc).messages := by
  obtain ⟨ms, hms⟩ := processToolCall_messages_shape env st tc
  rw [hms]
  exact List.mem_append_left _ h

theorem foldl_processToolCall_messages_mono (env : ToolEnv) (m : ChatMessage) :
    ∀ (l : List ToolCall) (st : LoopState),
      m ∈ st.messages → m ∈ (l.foldl (processToolCall env) st).messages := by
  intro l
  induction l with
  | nil => intro st h; exact h
  | cons a t ih =>
    intro st h
    rw [List.foldl_cons]
    exact ih _ (processToolCall_messages_mono env st a m h)

theorem processToolCall_absent (env : ToolEnv) (st : LoopState) (tc : ToolCall)
    (params : Params) (hty : tc.type = "function")
    (hp : env.parseArgs tc.function.arguments = .ok params)
    (hf : lookupTool env.registry tc.function.name = none) :
    processToolCall env st tc = { st with
      chunks := st.chunks ++ ["\n⚙️ 执行工具: " ++ tc.function.name ++ "\n"]
        ++ ["❌ " ++ ("工具不存在: " ++ toolNotFoundErr tc.function.name) ++ "\n"],
      messages := st.messages
        ++ [toolRoleMsg ("工具不存在: " ++ toolNotFoundErr tc.function.name) tc.id] } := by
  unfold processToolCall
  rw [if_neg (by simp [hty])]
  dsimp only
  rw [hp]
  dsimp only
  rw [hf]

theorem absence_msg_mem_foldl (env : ToolEnv) (tc : ToolCall) (params : Params)
    (hty : tc.type = "function")
    (hp : env.parseArgs tc.function.arguments = .ok params)
    (hf : lookupTool env.registry tc.function.name = none) :
    ∀ (tcs : List ToolCall) (st : LoopState), tc ∈ tcs →
      toolRoleMsg ("工具不存在: " ++ toolNotFoundErr tc.function.name) tc.id
        ∈ (tcs.foldl (processToolCall env) st).messages := by
  intro tcs
  induction tcs with
  | nil => intro st h; simp at h
  | cons a t ih =>
    intro st h
    rw [List.foldl_cons]
    rcases List.mem_cons.mp h with heq | hmem
    · subst heq
      apply foldl_processToolCall_messages_mono
      rw [processToolCall_absent env st tc params hty hp hf]
      exact List.mem_append_right _ (List.mem_singleton.mpr rfl)
    · exact ih _ hmem

/-- C4 (amended): for every tool call requested by the model of type
`function`, whose raw arguments parse as a JSON object, and whose
capability name is absent from the registry, the turn does not abort: the
iteration proceeds to the next model call, and at that point the message
list contains a tool-role message reporting the absence, keyed to that tool
call's id. -/
theorem absent_capability_reported (env : ToolEnv) (st : LoopState) (n : Nat)
    (resp : ChatResponse) (c : Choice) (cs : List Choice) (tc : ToolCall) (params : Params)
    (hc : env.chat st.messages = .ok resp) (hch : resp.choices = c :: cs)
    (htcs : c.message.toolCalls ≠ [])
    (hmem : tc ∈ c.message.toolCalls)
    (hty : tc.type = "function")
    (hp : env.parseArgs tc.function.arguments = .ok params)
    (hf : lookupTool env.registry tc.function.name = none) :
    ∃ st', runToolLoop env st (n + 1) = runToolLoop env st' n
      ∧ toolRoleMsg ("工具不存在: " ++ toolNotFoundErr tc.function.name) tc.id
          ∈ st'.messages := by
  refine ⟨toolIterationState env { st with iters := st.iters + 1 } c, ?_, ?_⟩
  · simp only [runToolLoop, hc, hch]
    rw [if_neg htcs]
  · unfold toolIterationState
    dsimp only
    exact absence_msg_mem_foldl env tc params hty hp hf _ _ hmem

/-- Counterexample to C4 as stated: a requested tool call naming the absent
`ghost` capability but carrying unparsable arguments yields only a
parse-error tool-role message — no message reporting the capability's
absence is appended. -/
theorem absent_capability_bad_args :
    lookupTool envNoTools.registry "ghost" = none
    ∧ (processToolCall envNoTools stEmpty tcGhostBadArgs).messages
      = [toolRoleMsg ("参数解析失败: " ++ "invalid character") "call-3"]
    ∧ ∀ m ∈ (processToolCall envNoTools stEmpty tcGhostBadArgs).messages,
        m.content ≠ "工具不存在: " ++ toolNotFoundErr "ghost" :=
  ⟨rfl, rfl, by decide⟩

/-- Witness for C4 (amended): an unregistered `ghost` request continues the
turn with the absence reported in the next model call's message list. -/
theorem absent_capability_reported_witness :
    ∃ st', runToolLoop envGhost stEmpty (9 + 1) = runToolLoop envGhost st' 9
      ∧ toolRoleMsg ("工具不存在: " ++ toolNotFoundErr "ghost") "call-4" ∈ st'.messages :=
  absent_capability_reported envGhost stEmpty 9 _ _ [] tcGhostOk [] rfl rfl
    (by decide) (by decide) rfl rfl rfl

/-! ## C5: the two-delta stream accumulates and emits in order -/

/-- C5: on the event stream `data: {..ab..}`, blank, `data: {..cd..}`,
blank, `data: [DONE]`, blank — for any delta decoder recognizing the two
payloads with contents `ab` and `cd` and any callback accepting them — the
transport returns the accumulated string `abcd` and the callback is invoked
exactly twice, with `ab` first and `cd` second. -/
theorem stream_two_deltas_in_order (decode : String → Option StreamResponse)
    (cb : String → Option String) (r1 r2 : StreamResponse) (c1 c2 : StreamChoice)
    (cs1 cs2 : List StreamChoice)
    (hd1 : decode jsonAb = some r1) (hr1 : r1.choices = c1 :: cs1)
    (hc1 : c1.delta.content = "ab")
    (hd2 : decode jsonCd = some r2) (hr2 : r2.choices = c2 :: cs2)
    (hc2 : c2.delta.content = "cd")
    (hcb1 : cb "ab" = none) (hcb2 : cb "cd" = none) :
    chatStreamLines decode cb
      ["data: " ++ jsonAb, "", "data: " ++ jsonCd, "", "data: [DONE]", ""]
      = .ok ("abcd", ["ab", "cd"]) := by
  have l1 : lineData ("data: " ++ jsonAb) = some jsonAb := by decide
  have l2 : lineData ("data: " ++ jsonCd) = some jsonCd := by decide
  have l3 : lineData "data: [DONE]" = some "[DONE]" := by decide
  have l0 : lineData "" = none := by decide
  have hne1 : jsonAb ≠ "[DONE]" := by decide
  have hne2 : jsonCd ≠ "[DONE]" := by decide
  unfold chatStreamLines
  simp only [processStream, l1, l0, l2, l3]
  rw [if_neg hne1, hd1]
  simp only [hr1, hc1]
  rw [if_neg (by decide : ¬("ab" : String) = ""), hcb1]
  simp only [processStream, l0, l2]
  rw [if_neg hne2, hd2]
  simp only [hr2, hc2]
  rw [if_neg (by decide : ¬("cd" : String) = ""), hcb2]
  simp only [processStream, l0, l3]
  simp only [if_true]
  rfl

/-- Witness for C5 with the concrete table decoder and callback. -/
theorem stream_two_deltas_in_order_witness :
    chatStreamLines decode0 cbOk
      ["data: " ++ jsonAb, "", "data: " ++ jsonCd, "", "data: [DONE]", ""]
      = .ok ("abcd", ["ab", "cd"]) :=
  stream_two_deltas_in_order decode0 cbOk _ _ _ _ [] [] rfl rfl rfl rfl rfl rfl rfl rfl

/-! ## C6: an undecodable line between two valid deltas is skipped -/

/-- C6: an event stream whose second data line fails to decode, framed by
two valid delta lines with nonempty contents and closed by the `[DONE]`
terminator, still succeeds: the invalid line is skipped and the transport
returns the concatenation of the two valid contents, each handed to the
callback once, in order. -/
theorem stream_invalid_line_skipped (decode : String → Option StreamResponse)
    (cb : String → Option String) (l1 lb l2 p1 pb p2 : String)
    (r1 r2 : StreamResponse) (c1 c2 : StreamChoice) (cs1 cs2 : List StreamChoice)
    (hl1 : lineData l1 = some p1) (hlb : lineData lb = some pb)
    (hl2 : lineData l2 = some p2)
    (hp1 : p1 ≠ "[DONE]") (hpb : pb ≠ "[DONE]") (hp2 : p2 ≠ "[DONE]")
    (hd1 : decode p1 = some r1) (hr1 : r1.choices = c1 :: cs1)
    (hdb : decode pb = none)
    (hd2 : decode p2 = some r2) (hr2 : r2.choices = c2 :: cs2)
    (hc1 : c1.delta.content ≠ "") (hc2 : c2.delta.content ≠ "")
    (hcb1 : cb c1.delta.content = none) (hcb2 : cb c2.delta.content = none) :
    chatStreamLines decode cb [l1, lb, l2, "data: [DONE]"]
      = .ok (c1.delta.content ++ c2.delta.content, [c1.delta.content, c2.delta.content]) := by
  have l3 : lineData "data: [DONE]" = some "[DONE]" := by decide
  unfold chatStreamLines
  simp only [processStream, hl1]
  rw [if_neg hp1, hd1]
  simp only [hr1]
  rw [if_neg hc1, hcb1]
  simp only [processStream, hlb]
  rw [if_neg hpb, hdb]
  simp only [processStream, hl2]
  rw [if_neg hp2, hd2]
  simp only [hr2]
  rw [if_neg hc2, hcb2]
  simp only [processStream, l3]
  simp only [if_true]
  constructor

/-- Witness for C6: the table decoder on `ab`, an unparsable line, `cd`. -/
theorem stream_invalid_line_skipped_witness :
    chatStreamLines decode0 cbOk
      ["data: " ++ jsonAb, "data: oops", "data: " ++ jsonCd, "data: [DONE]"]
      = .ok ("ab" ++ "cd", ["ab", "cd"]) :=
  stream_invalid_line_skipped decode0 cbOk ("data: " ++ jsonAb) "data: oops"
    ("data: " ++ jsonCd) jsonAb "oops" jsonCd _ _ _ _ [] []
    (by decide) (by decide) (by decide) (by decide) (by decide) (by decide)
    rfl rfl rfl rfl rfl (by decide) (by decide) rfl rfl

end AgentCli
